import Mathlib

/-!
Verification development for the clean stock-monitor repository.

The development shallowly embeds the two core modules:
  * `multi_threshold_alerts.py` — the multi-threshold price-spike alert
    tracker (`MultiThresholdAlertTracker`), and
  * `enhanced_bse_deduplication.py` — the layered announcement
    deduplication engine (`EnhancedBSEDeduplication`).

Modelling conventions:
  * Python strings are Lean `String`s; the handful of Python string
    primitives the source relies on (`lower`, `strip`, `split`, `in`,
    slicing) are re-implemented below on `List Char` so that they are
    structurally recursive and hence evaluable by the kernel.  All inputs
    relevant to the claims are ASCII, where these implementations agree
    with Python's.
  * Python floats are embedded as rationals (`ℚ`); every float the code
    manipulates is a decimal literal, and the code only compares, negates
    and takes absolute values, so no rounding behaviour is observable.
  * `datetime` values are embedded as integer Unix timestamps (`Int`,
    seconds); `timedelta(hours = h)` becomes `h * 3600` seconds.  ISO
    timestamp strings are ordered chronologically, which the integer
    order models.  Calendar dates (`date.today().isoformat()`) are kept
    as opaque `String`s supplied by the caller.
  * Python dicts that the code builds up (`_daily_tracker`, the signature
    groups) are embedded as insertion-ordered association lists, and
    Python sets of strings as duplicate-free lists.
  * Storage (the Supabase client and the functions imported from the
    repository's `database` module) is external I/O.  It is embedded as a
    record of query functions returning `Except Unit _`, the `.error`
    case standing for a raised exception; `Client.ofTable` gives the
    honest, failure-free semantics over an explicit table of rows.
  * The regular expressions used by `generate_content_signature` are
    embedded with a small backtracking regex engine (`RE`, `reRun`,
    `reFindAll`) whose alternative/greedy priority order matches Python's
    `re` on the pattern shapes the source uses; each source pattern is
    transcribed as an `RE` term.
  * `hashlib.md5` is implemented in full (RFC 1321) over `Nat` with
    explicit `% 2 ^ 32` arithmetic, with test-vector lemmas.
-/

/-! ### Python string primitives on lists of characters -/

/-- The characters Python's `str.strip()` and `\s` treat as whitespace
(ASCII range). -/
def isPySpace (c : Char) : Bool :=
  c = ' ' ∨ c = '\t' ∨ c = '\n' ∨ c = '\r' ∨ c = '\x0b' ∨ c = '\x0c'

/-- Python `str.lower()` (ASCII). -/
def pyLower (s : String) : String :=
  String.mk (s.data.map Char.toLower)

/-- Is `p` a prefix of `t`? (Boolean, structurally recursive.) -/
def isPrefixL : List Char → List Char → Bool
  | [], _ => true
  | _ :: _, [] => false
  | a :: p, b :: t => a = b && isPrefixL p t

/-- Does `t` contain `p` as a contiguous substring?  Embeds Python's
`p in t` on strings. -/
def containsL (p : List Char) : List Char → Bool
  | [] => isPrefixL p []
  | c :: t => isPrefixL p (c :: t) || containsL p t

/-- Python `sub in s` for strings. -/
def strContains (s sub : String) : Bool :=
  containsL sub.data s.data

/-- Helper for `pySplit`: returns the chunk before the first separator
and the list of the remaining chunks. -/
def splitCharAux (sep : Char) : List Char → List Char × List (List Char)
  | [] => ([], [])
  | c :: cs =>
    let r := splitCharAux sep cs
    if c = sep then ([], r.1 :: r.2) else (c :: r.1, r.2)

/-- Python `s.split(sep)` for a one-character separator. -/
def pySplit (sep : Char) (s : String) : List String :=
  let r := splitCharAux sep s.data
  (r.1 :: r.2).map String.mk

/-- Python `s.strip()` (ASCII whitespace). -/
def pyStrip (s : String) : String :=
  String.mk (((s.data.dropWhile isPySpace).reverse.dropWhile isPySpace).reverse)

/-- Python `s[:n]` for strings. -/
def pyTake (n : Nat) (s : String) : String :=
  String.mk (s.data.take n)

/-- Lexicographic comparison of character lists by code point — the
order Python uses to compare strings.  (Lean's built-in `String`
comparison is not kernel-reducible, so we spell it out.) -/
def lexLeB : List Char → List Char → Bool
  | [], _ => true
  | _ :: _, [] => false
  | a :: s, b :: t =>
    if a.toNat = b.toNat then lexLeB s t else a.toNat < b.toNat

/-- Python `≤` on strings (code-point lexicographic order). -/
def strLeB (a b : String) : Bool :=
  lexLeB a.data b.data

/-! ### Python's `sorted`

Python's `sorted` is a stable sort; the output of a stable sort is
uniquely determined by the comparator and the input order, so a stable
insertion sort is an exact model.  `le y x = true` means `y` may stay in
front of `x`; `sInsert` puts the new element after every earlier element
it does not strictly beat, which is precisely stability. -/

/-- Insert `x` into `l`, keeping every `y` with `le y x` in front of it. -/
def sInsert (le : α → α → Bool) (x : α) : List α → List α
  | [] => [x]
  | y :: ys => if le y x then y :: sInsert le x ys else x :: y :: ys

/-- Stable sort with respect to the boolean comparator `le`; embeds
Python's `sorted(l, ...)` once `le` encodes the requested key /
`reverse` combination. -/
def pySorted (le : α → α → Bool) (l : List α) : List α :=
  l.foldl (fun acc x => sInsert le x acc) []

/-- Python `sorted` on lists of strings (ascending code-point order). -/
def pySortedStr (l : List String) : List String :=
  pySorted strLeB l

/-! ### A small backtracking regex engine

`reRun` returns the list of possible remainders of the input after a
match at the current position, in backtracking priority order (first =
the remainder Python's `re` would commit to): alternatives left first,
`?` with the optional part first, `*` with more repetitions first.
Quantifiers with counted bounds (`{m,n}`) are expressed by expansion
(`reTimes`, `reAtMost`), which produces the same greedy priority order.
The `fuel` argument only enforces structural termination; `reFuel`
computes a bound large enough that it is never exhausted on the calls
the embedding makes. -/

inductive RE where
  | eps : RE
  | cls (p : Char → Bool) : RE
  | lit (s : List Char) : RE
  | seq (a b : RE) : RE
  | alt (a b : RE) : RE
  | opt (a : RE) : RE
  | star (a : RE) : RE

/-- Structural size of a regex, used only to compute a fuel bound. -/
def reSize : RE → Nat
  | .eps => 1
  | .cls _ => 1
  | .lit s => s.length + 1
  | .seq a b => reSize a + reSize b + 1
  | .alt a b => reSize a + reSize b + 1
  | .opt a => reSize a + 1
  | .star a => reSize a + 1

/-- All remainders after matching `r` at the head of `cs`, highest
backtracking priority first. -/
def reRun : Nat → RE → List Char → List (List Char)
  | 0, _, _ => []
  | _ + 1, .eps, cs => [cs]
  | _ + 1, .cls _, [] => []
  | _ + 1, .cls p, c :: cs => if p c then [cs] else []
  | _ + 1, .lit s, cs => if isPrefixL s cs then [cs.drop s.length] else []
  | f + 1, .seq a b, cs => (reRun f a cs).flatMap (reRun f b)
  | f + 1, .alt a b, cs => reRun f a cs ++ reRun f b cs
  | f + 1, .opt a, cs => reRun f a cs ++ [cs]
  | f + 1, .star a, cs =>
    ((reRun f a cs).filter (fun t => t.length < cs.length)).flatMap
      (fun t => reRun f (.star a) t) ++ [cs]

/-- Fuel sufficient for every call the embedding makes. -/
def reFuel (r : RE) (cs : List Char) : Nat :=
  (reSize r + 2) * (cs.length + 2)

/-- Length of the (leftmost-position, priority-first) match of `r` at
the head of `cs`, if any. -/
def reMatchLen (r : RE) (cs : List Char) : Option Nat :=
  (reRun (reFuel r cs) r cs).head?.map (fun rest => cs.length - rest.length)

/-- Scanning worker for `reFindAll`: fuel decreases once per position
advanced, so `cs.length + 1` initial fuel suffices. -/
def reFindAllGo (r : RE) : Nat → List Char → List (List Char)
  | 0, _ => []
  | f + 1, cs =>
    match reMatchLen r cs with
    | none =>
      match cs with
      | [] => []
      | _ :: t => reFindAllGo r f t
    | some n =>
      if n = 0 then
        cs.take n ::
          (match cs with
           | [] => []
           | _ :: t => reFindAllGo r f t)
      else cs.take n :: reFindAllGo r f (cs.drop n)

/-- Python `re.findall(pattern, s)` for a pattern whose single capture
group is the whole pattern: the list of non-overlapping matches, left to
right. -/
def reFindAll (r : RE) (cs : List Char) : List (List Char) :=
  reFindAllGo r (cs.length + 1) cs

/-- Nested alternation `r₁|r₂|…`, tried left to right. -/
def reAlts (r : RE) (rs : List RE) : RE :=
  rs.foldl .alt r

/-- `a{n}`: `n` copies in sequence. -/
def reTimes (a : RE) : Nat → RE
  | 0 => .eps
  | 1 => a
  | n + 2 => .seq a (reTimes a (n + 1))

/-- `a{0,n}`, greedy. -/
def reAtMost (a : RE) : Nat → RE
  | 0 => .eps
  | n + 1 => .opt (.seq a (reAtMost a n))

/-- `a+`, greedy. -/
def rePlus (a : RE) : RE :=
  .seq a (.star a)

/-- `\d` (the inputs are ASCII). -/
def reDigit : RE := .cls Char.isDigit

/-- `\s` (ASCII whitespace). -/
def reSpace : RE := .cls isPySpace

/-- `\d{1,2}` -/
def reD12 : RE := .seq reDigit (reAtMost reDigit 1)

/-- The date-separator class (a dash, a slash or a dot). -/
def reDateSep : RE := .cls (fun c => c = '-' ∨ c = '/' ∨ c = '.')

/-- `(?:st|nd|rd|th)` -/
def reOrdSuffix : RE :=
  reAlts (.lit "st".data) [.lit "nd".data, .lit "rd".data, .lit "th".data]

/-- `(?:january|february|…|december)` in the source's order. -/
def reMonths : RE :=
  reAlts (.lit "january".data)
    [.lit "february".data, .lit "march".data, .lit "april".data,
     .lit "may".data, .lit "june".data, .lit "july".data,
     .lit "august".data, .lit "september".data, .lit "october".data,
     .lit "november".data, .lit "december".data]

/-- `\d{1,2}(?:st|nd|rd|th)?\s+(?:january|…|december)\s+\d{4}` — the
first date pattern of `generate_content_signature` (shared by the
financial-results and board-meeting branches). -/
def datePattern1 : RE :=
  .seq reD12 (.seq (.opt reOrdSuffix) (.seq (rePlus reSpace)
    (.seq reMonths (.seq (rePlus reSpace) (reTimes reDigit 4)))))

/-- Two digit groups and a four-digit year, joined by date separators:
day, month, year. -/
def datePattern2 : RE :=
  .seq reD12 (.seq reDateSep (.seq reD12 (.seq reDateSep (reTimes reDigit 4))))

/-- A four-digit year then two digit groups, joined by date separators:
year, month, day. -/
def datePattern3 : RE :=
  .seq (reTimes reDigit 4) (.seq reDateSep (.seq reD12 (.seq reDateSep reD12)))

/-- `(?:crore|lakh|million|billion)` -/
def reValueUnit : RE :=
  reAlts (.lit "crore".data)
    [.lit "lakh".data, .lit "million".data, .lit "billion".data]

/-- `\d+(?:\,\d{3})*(?:\.\d+)?` — a currency amount. -/
def reAmount : RE :=
  .seq (rePlus reDigit)
    (.seq (.star (.seq (.lit ",".data) (reTimes reDigit 3)))
      (.opt (.seq (.lit ".".data) (rePlus reDigit))))

/-- `rs\.?\s*\d+(?:\,\d{3})*(?:\.\d+)?\s*(?:crore|lakh|million|billion)` -/
def contractPattern1 : RE :=
  .seq (.lit "rs".data) (.seq (.opt (.lit ".".data)) (.seq (.star reSpace)
    (.seq reAmount (.seq (.star reSpace) reValueUnit))))

/-- `worth\s+rs\.?\s*\d+(?:\,\d{3})*(?:\.\d+)?` -/
def contractPattern2 : RE :=
  .seq (.lit "worth".data) (.seq (rePlus reSpace) (.seq (.lit "rs".data)
    (.seq (.opt (.lit ".".data)) (.seq (.star reSpace) reAmount))))

/-- `\d+(?:\,\d{3})*(?:\.\d+)?\s*(?:crore|lakh|million|billion)` -/
def contractPattern3 : RE :=
  .seq reAmount (.seq (.star reSpace) reValueUnit)

/-! ### MD5 (RFC 1321), over `Nat` with explicit `% 2 ^ 32` -/

/-- `2 ^ 32`. -/
def M32 : Nat := 4294967296

/-- 32-bit complement. -/
def bnot32 (x : Nat) : Nat := 4294967295 - x

/-- 32-bit left rotation (for `x < 2 ^ 32`, `s ≤ 32`). -/
def rotl32 (x s : Nat) : Nat := (x * 2 ^ s) % M32 + x / 2 ^ (32 - s)

/-- The per-step sine-derived constants of MD5. -/
def md5K : List Nat :=
  [0xd76aa478, 0xe8c7b756, 0x242070db, 0xc1bdceee,
   0xf57c0faf, 0x4787c62a, 0xa8304613, 0xfd469501,
   0x698098d8, 0x8b44f7af, 0xffff5bb1, 0x895cd7be,
   0x6b901122, 0xfd987193, 0xa679438e, 0x49b40821,
   0xf61e2562, 0xc040b340, 0x265e5a51, 0xe9b6c7aa,
   0xd62f105d, 0x02441453, 0xd8a1e681, 0xe7d3fbc8,
   0x21e1cde6, 0xc33707d6, 0xf4d50d87, 0x455a14ed,
   0xa9e3e905, 0xfcefa3f8, 0x676f02d9, 0x8d2a4c8a,
   0xfffa3942, 0x8771f681, 0x6d9d6122, 0xfde5380c,
   0xa4beea44, 0x4bdecfa9, 0xf6bb4b60, 0xbebfbc70,
   0x289b7ec6, 0xeaa127fa, 0xd4ef3085, 0x04881d05,
   0xd9d4d039, 0xe6db99e5, 0x1fa27cf8, 0xc4ac5665,
   0xf4292244, 0x432aff97, 0xab9423a7, 0xfc93a039,
   0x655b59c3, 0x8f0ccc92, 0xffeff47d, 0x85845dd1,
   0x6fa87e4f, 0xfe2ce6e0, 0xa3014314, 0x4e0811a1,
   0xf7537e82, 0xbd3af235, 0x2ad7d2bb, 0xeb86d391]

/-- The per-step rotation amounts of MD5. -/
def md5S : List Nat :=
  [7, 12, 17, 22, 7, 12, 17, 22, 7, 12, 17, 22, 7, 12, 17, 22,
   5, 9, 14, 20, 5, 9, 14, 20, 5, 9, 14, 20, 5, 9, 14, 20,
   4, 11, 16, 23, 4, 11, 16, 23, 4, 11, 16, 23, 4, 11, 16, 23,
   6, 10, 15, 21, 6, 10, 15, 21, 6, 10, 15, 21, 6, 10, 15, 21]

/-- A 32-bit word from four little-endian bytes. -/
def leWord (bs : List Nat) : Nat :=
  bs.foldr (fun b acc => b + 256 * acc) 0

/-- One 64-byte MD5 block applied to the running state. -/
def md5Block (st : Nat × Nat × Nat × Nat) (block : List Nat) :
    Nat × Nat × Nat × Nat :=
  let w := fun j => leWord ((block.drop (4 * j)).take 4)
  let r := (List.range 64).foldl
    (fun (t : Nat × Nat × Nat × Nat) i =>
      let A := t.1; let B := t.2.1; let C := t.2.2.1; let D := t.2.2.2
      let fg : Nat × Nat :=
        if i < 16 then (Nat.lor (Nat.land B C) (Nat.land (bnot32 B) D), i)
        else if i < 32 then
          (Nat.lor (Nat.land D B) (Nat.land (bnot32 D) C), (5 * i + 1) % 16)
        else if i < 48 then
          (Nat.xor B (Nat.xor C D), (3 * i + 5) % 16)
        else (Nat.xor C (Nat.lor B (bnot32 D)), (7 * i) % 16)
      let fv := (fg.1 + A + md5K.getD i 0 + w fg.2) % M32
      (D, (B + rotl32 fv (md5S.getD i 0)) % M32, B, C))
    st
  ((st.1 + r.1) % M32, (st.2.1 + r.2.1) % M32,
   (st.2.2.1 + r.2.2.1) % M32, (st.2.2.2 + r.2.2.2) % M32)

/-- Split a byte list into 64-byte chunks (fuel-driven). -/
def chunks64 : Nat → List Nat → List (List Nat)
  | 0, _ => []
  | _ + 1, [] => []
  | f + 1, l => l.take 64 :: chunks64 f (l.drop 64)

/-- UTF-8 encoding of a code point, as Python's `str.encode()` performs
before hashing. -/
def utf8Bytes (n : Nat) : List Nat :=
  if n < 0x80 then [n]
  else if n < 0x800 then [0xc0 + n / 64, 0x80 + n % 64]
  else if n < 0x10000 then
    [0xe0 + n / 4096, 0x80 + n / 64 % 64, 0x80 + n % 64]
  else
    [0xf0 + n / 262144, 0x80 + n / 4096 % 64, 0x80 + n / 64 % 64,
     0x80 + n % 64]

/-- The UTF-8 bytes of a string. -/
def strBytes (s : String) : List Nat :=
  s.data.flatMap (fun c => utf8Bytes c.toNat)

/-- MD5 padding: a `0x80` byte, zeros to 56 mod 64, then the bit length
as eight little-endian bytes. -/
def md5Pad (msg : List Nat) : List Nat :=
  let len := msg.length
  let zeros := (119 - len % 64) % 64
  let bitLen := len * 8 % (2 ^ 64)
  msg ++ [0x80] ++ List.replicate zeros 0 ++
    (List.range 8).map (fun i => bitLen / 256 ^ i % 256)

/-- The hexadecimal digit for `n < 16` (lowercase, as Python's
`hexdigest`). -/
def hexDigitChar (n : Nat) : Char :=
  if n < 10 then Char.ofNat (48 + n) else Char.ofNat (87 + n)

/-- Two lowercase hex digits of a byte. -/
def byteHex (b : Nat) : List Char :=
  [hexDigitChar (b / 16 % 16), hexDigitChar (b % 16)]

/-- The four little-endian bytes of a 32-bit word. -/
def wordLeBytes (w : Nat) : List Nat :=
  [w % 256, w / 256 % 256, w / 65536 % 256, w / 16777216 % 256]

/-- `hashlib.md5(s.encode()).hexdigest()`. -/
def md5hex (s : String) : String :=
  let padded := md5Pad (strBytes s)
  let st := (chunks64 (padded.length + 1) padded).foldl md5Block
    (0x67452301, 0xefcdab89, 0x98badcfe, 0x10325476)
  String.mk
    (((wordLeBytes st.1 ++ wordLeBytes st.2.1 ++ wordLeBytes st.2.2.1 ++
       wordLeBytes st.2.2.2).flatMap byteHex))

/-! ### `enhanced_bse_deduplication.py` — content signatures and grouping -/

/-- The `financial_periods` trigger list of `generate_content_signature`. -/
def financial_periods : List String :=
  ["quarter ended", "half year ended", "year ended", "quarterly", "annual",
   "financial results", "unaudited", "audited", "standalone", "consolidated"]

/-- The `contract_terms` trigger list of `generate_content_signature`. -/
def contract_terms : List String :=
  ["order", "contract", "bagged", "secured", "won", "received"]

/-- The `date_patterns` of the financial-results branch. -/
def date_patterns : List RE := [datePattern1, datePattern2, datePattern3]

/-- The `meeting_date_patterns` of the board-meeting branch. -/
def meeting_date_patterns : List RE := [datePattern1, datePattern2]

/-- The `contract_patterns` of the contract branch. -/
def contract_patterns : List RE :=
  [contractPattern1, contractPattern2, contractPattern3]

/-- Remove every occurrence of `st`, `nd`, `rd`, `th`
(`re.sub(r'(st|nd|rd|th)', '', s)`; the four alternatives have distinct
first characters, so leftmost non-overlapping replacement is this scan). -/
def subOrd : List Char → List Char
  | [] => []
  | [a] => [a]
  | a :: b :: t =>
    if (a = 's' ∧ b = 't') ∨ (a = 'n' ∧ b = 'd') ∨ (a = 'r' ∧ b = 'd') ∨
        (a = 't' ∧ b = 'h') then
      subOrd t
    else a :: subOrd (b :: t)

/-- `re.sub(r'[./]', '-', s)`. -/
def subSep (l : List Char) : List Char :=
  l.map (fun c => if c = '.' ∨ c = '/' then '-' else c)

/-- Date normalization of `generate_content_signature`: lowercase, strip
ordinal suffixes, rewrite `.` and `/` separators to `-`. -/
def normalizeDateStr (d : List Char) : String :=
  String.mk (subSep (subOrd (d.map Char.toLower)))

/-- All date strings the three `date_patterns` extract from the
(lowercased) headline, in pattern-major order as the source's loop
produces them. -/
def extract_dates (h : String) : List (List Char) :=
  date_patterns.flatMap (fun p => reFindAll p h.data)

/-- `\w` (ASCII) — used by the contract-value normalization. -/
def isWordChar (c : Char) : Bool := c.isAlphanum ∨ c = '_'

/-- `re.sub(r'[^\w\d]', '_', s)`. -/
def subNonWord (l : List Char) : List Char :=
  l.map (fun c => if isWordChar c then c else '_')

/-- `EnhancedBSEDeduplication.generate_content_signature`.  The `ann_dt`
argument is accepted and ignored exactly as in the source.  The final
branch hashes the *original-case* headline, as the source does. -/
def generate_content_signature (headline scrip_code : String)
    (ann_dt : Option ℚ) : String :=
  if headline = "" then "empty_" ++ scrip_code
  else
    let h := pyLower headline
    if financial_periods.any (fun p => strContains h p) then
      let extracted := extract_dates h
      if extracted.length > 0 then
        let normalized := extracted.map normalizeDateStr
        let dates_sig := String.intercalate "_" (pySortedStr normalized.dedup)
        "financial_" ++ (scrip_code ++ ("_" ++ dates_sig))
      else "financial_" ++ (scrip_code ++ "_unknown_period")
    else if strContains h "board meeting" then
      match meeting_date_patterns.findSome?
          (fun p => (reFindAll p h.data).head?) with
      | some m => "board_meeting_" ++ (scrip_code ++ ("_" ++ normalizeDateStr m))
      | none => "board_meeting_" ++ (scrip_code ++ "_unknown_date")
    else if contract_terms.any (fun t => strContains h t) then
      let contract_value :=
        match contract_patterns.findSome?
            (fun p => (reFindAll p h.data).head?) with
        | some m => String.mk (subNonWord (m.map Char.toLower))
        | none => "unknown_value"
      "contract_" ++ (scrip_code ++ ("_" ++ contract_value))
    else "other_" ++ (scrip_code ++ ("_" ++ pyTake 8 (md5hex headline)))

/-- An announcement dict as the deduplication engine consumes it.
Missing dict keys are modelled by the empty string / `none`; `ann_dt` is
`some` of the Unix timestamp when the value is a datetime (the only case
in which `hasattr(ann_dt, 'timestamp')` holds), `none` otherwise. -/
structure Ann where
  headline : String
  scrip_code : String
  ann_dt : Option ℚ
  pdf_name : String
deriving DecidableEq

/-- `EnhancedBSEDeduplication.group_announcements`: a Python dict keyed
by signature, embedded as an insertion-ordered association list. -/
def insertGroup (gs : List (String × List Ann)) (k : String) (a : Ann) :
    List (String × List Ann) :=
  if gs.any (fun kv => kv.1 = k) then
    gs.map (fun kv => if kv.1 = k then (kv.1, kv.2 ++ [a]) else kv)
  else gs ++ [(k, [a])]

/-- The signature `group_announcements` computes for one announcement
from its own fields. -/
def sigOfAnn (ann : Ann) : String :=
  generate_content_signature ann.headline ann.scrip_code ann.ann_dt

/-- `EnhancedBSEDeduplication.group_announcements`. -/
def group_announcements (announcements : List Ann) :
    List (String × List Ann) :=
  announcements.foldl
    (fun groups ann => insertGroup groups (sigOfAnn ann) ann) []

/-- The key computed by `announcement_priority`, as a lexicographically
ordered triple `(has_pdf, -timestamp, headline_length)` — Python tuples
compare lexicographically. -/
def announcement_priority (ann : Ann) : Lex (Nat × Lex (ℚ × Nat)) :=
  toLex
    ((if ann.pdf_name ≠ "" then 1 else 0),
     toLex
       ((match ann.ann_dt with
         | some ts => -ts
         | none => 0),
        ann.headline.length))

/-- The comparator realizing `sorted(..., key=announcement_priority,
reverse=True)`: in a stable descending sort, `a` may stay in front of
`b` exactly when `priority b ≤ priority a`. -/
def annLe (a b : Ann) : Bool :=
  decide (announcement_priority b ≤ announcement_priority a)

/-- `EnhancedBSEDeduplication.select_best_announcement_from_group`. -/
def select_best_announcement_from_group (group : List Ann) : Option Ann :=
  if group = [] then none
  else if group.length = 1 then group.head?
  else (pySorted annLe group).head?

/-! ### `enhanced_bse_deduplication.py` — layered duplicate checks -/

/-- A row of the `seen_announcements` delivery ledger.  `created_at` is
the insertion timestamp (ISO strings compare chronologically, modelled
by `Int` seconds). -/
structure SeenRec where
  user_id : String
  news_id : String
  scrip_code : String
  headline : String
  ann_date : String
  category : String
  created_at : Int
deriving DecidableEq

/-- The storage collaborator: one function per query shape the engine
issues, returning `.error` for a raised storage exception. -/
structure Client where
  queryUserScripSince : String → String → Int → Except Unit (List SeenRec)
  queryUserScripLikeSince : String → String → String → Int →
    Except Unit (List SeenRec)
  queryNewsSince : String → Int → Except Unit (List SeenRec)
  seenExists : String → String → Except Unit Bool

/-- Modelled from the spec: `db_seen_announcement_exists` is imported
from the repository's `database` module, which is not among the sources;
per the spec's layer "Exact identifier match" it checks whether "a
delivery record already exists for this exact `(user_id,
announcement_id)`". -/
def db_seen_announcement_exists (table : List SeenRec)
    (user_id news_id : String) : Bool :=
  table.any (fun r => r.user_id = user_id ∧ r.news_id = news_id)

/-- The honest failure-free client over an explicit ledger: `eq` / `gte`
filters evaluated row-wise; `like '%pat%'` is substring containment. -/
def Client.ofTable (table : List SeenRec) : Client where
  queryUserScripSince u s since :=
    .ok (table.filter
      (fun r => r.user_id = u ∧ r.scrip_code = s ∧ since ≤ r.created_at))
  queryUserScripLikeSince u s pat since :=
    .ok (table.filter
      (fun r => r.user_id = u ∧ r.scrip_code = s ∧
        strContains r.headline pat ∧ since ≤ r.created_at))
  queryNewsSince n since :=
    .ok (table.filter (fun r => r.news_id = n ∧ since ≤ r.created_at))
  seenExists u n := .ok (db_seen_announcement_exists table u n)

/-- The `result_indicators` vocabulary of
`is_result_notification_in_cooling_period`. -/
def result_indicators : List String :=
  ["financial results", "quarter ended", "half year ended", "year ended",
   "quarterly results", "unaudited results", "audited results",
   "board meeting", "profit", "loss", "revenue", "dividend"]

/-- The financial-result subset that selects the one-week cooling
window. -/
def financial_result_terms : List String :=
  ["financial results", "quarter ended", "half year ended"]

/-- Is the (lowercased) headline result-related? -/
def isResultRelated (h : String) : Bool :=
  result_indicators.any (fun i => strContains h i)

/-- `EnhancedBSEDeduplication.is_result_notification_in_cooling_period`.
Its own `try`/`except` converts any storage error into
`(False, "cooling_check_failed")`, so the function is total.  The
`category` argument is accepted and ignored exactly as in the source. -/
def is_result_notification_in_cooling_period (sb : Client) (now : Int)
    (user_id scrip_code headline category : String) : Bool × String :=
  let h := pyLower headline
  if ¬ isResultRelated h then (false, "not_result_related")
  else
    let is_financial_result :=
      financial_result_terms.any (fun t => strContains h t)
    let cooling_hours : Int := if is_financial_result then 24 * 7 else 3
    let cooling_type :=
      if is_financial_result then "financial_results_week"
      else "result_3_hours"
    match sb.queryUserScripSince user_id scrip_code
        (now - cooling_hours * 3600) with
    | .error _ => (false, "cooling_check_failed")
    | .ok recs =>
      if recs.any (fun r => isResultRelated (pyLower r.headline)) then
        (true, "cooling_period_" ++ cooling_type)
      else (false, "outside_cooling_period")

/-- The text placed between the two `%` wildcards of the layer-3 LIKE
pattern: the first 50 characters of the stripped headline. -/
def likeFragment (headline : String) : String :=
  pyTake 50 (pyStrip headline)

/-- The field-equality confirmation of the fuzzy content layer. -/
def contentFieldsMatch (headline ann_dt_str category : String)
    (r : SeenRec) : Bool :=
  pyLower (pyStrip r.headline) = pyLower headline ∧
  pyStrip r.ann_date = ann_dt_str ∧
  pyLower (pyStrip r.category) = pyLower category

/-- The body of the `try` block of `is_announcement_already_sent` after
the cooling-period layer: exact-identifier match, fuzzy content match,
cross-user global suppression, burst rate-limit.  An `.error` result is
a storage exception propagating to the enclosing handler.  (The source
also computes a content hash here that it never reads; that dead local
is omitted.) -/
def dedupLayers (sb : Client) (now : Int)
    (user_id news_id headline ann_dt_str category scrip_code : String) :
    Except Unit (Bool × String) :=
  match sb.seenExists user_id news_id with
  | .error e => .error e
  | .ok exact =>
    if exact then .ok (true, "exact_match_existing_table")
    else
      match sb.queryUserScripLikeSince user_id scrip_code
          (likeFragment headline) (now - 24 * 3600) with
      | .error e => .error e
      | .ok resp =>
        match resp.find? (contentFieldsMatch headline ann_dt_str category) with
        | some r => .ok (true, "content_match_" ++ toString r.created_at)
        | none =>
          match sb.queryNewsSince news_id (now - 6 * 3600) with
          | .error e => .error e
          | .ok glob =>
            if glob.length > 0 then
              .ok (true, "sent_to_other_users_" ++ toString glob.length)
            else
              match sb.queryUserScripSince user_id scrip_code
                  (now - 5 * 60) with
              | .error e => .error e
              | .ok recent =>
                if recent.length > 2 then
                  .ok (true, "rate_limiting_protection")
                else .ok (false, "no_duplicate_found")

/-- `EnhancedBSEDeduplication.is_announcement_already_sent`.  `ann_dt`
arrives already converted to its string form (the source's
`ann_dt_str`); `company_name` is only read by the omitted dead
content-hash local and is dropped here.  The enclosing `except` turns
any storage exception from the layers into
`(False, "database_check_failed")` — the function never raises. -/
def is_announcement_already_sent (sb : Client) (now : Int)
    (user_id news_id headline ann_dt_str category scrip_code : String) :
    Bool × String :=
  let cool := is_result_notification_in_cooling_period sb now user_id
    scrip_code headline category
  if cool.1 then (true, "cooling_period_" ++ cool.2)
  else
    match dedupLayers sb now user_id news_id headline ann_dt_str category
        scrip_code with
    | .ok r => r
    | .error _ => (false, "database_check_failed")

/-! ### `multi_threshold_alerts.py` — the multi-threshold alert tracker -/

/-- The mutable state of `MultiThresholdAlertTracker`: the threshold
ladder, the in-memory per-day tracker (a dict from composite string keys
to sets of alert-type strings, embedded as an insertion-ordered
association list with duplicate-free value lists), and the cleanup
clock. -/
structure MultiThresholdAlertTracker where
  thresholds : List ℚ
  daily_tracker : List (String × List String)
  last_cleanup : Int
  cleanup_interval : Int
deriving DecidableEq

/-- `MultiThresholdAlertTracker.__init__` (constructed at time `now`). -/
def MultiThresholdAlertTracker.init (now : Int) : MultiThresholdAlertTracker :=
  { thresholds := [5, 10, 15, 20]
    daily_tracker := []
    last_cleanup := now
    cleanup_interval := 3600 }

/-- `_get_tracking_key`: the composite string key
`f"{user_id}_{bse_code}_{alert_date}"`. -/
def _get_tracking_key (user_id bse_code alert_date : String) : String :=
  user_id ++ ("_" ++ (bse_code ++ ("_" ++ alert_date)))

/-- The per-key test of the eviction loop in `_cleanup_old_entries`:
split on underscores, rebuild `parts[-2] + '_' + parts[-1]`, and flag
the key for removal when that string differs from today's date. -/
def keyIsStale (today key : String) : Bool :=
  let parts := pySplit '_' key
  if parts.length ≥ 3 then
    (parts.getD (parts.length - 2) "" ++
      ("_" ++ parts.getD (parts.length - 1) "")) ≠ today
  else false

/-- `_cleanup_old_entries`, with `datetime.now()` and
`date.today().isoformat()` supplied as `now` and `today`. -/
def _cleanup_old_entries (now : Int) (today : String)
    (t : MultiThresholdAlertTracker) : MultiThresholdAlertTracker :=
  if now - t.last_cleanup < t.cleanup_interval then t
  else
    { t with
      last_cleanup := now
      daily_tracker := t.daily_tracker.filter (fun kv => ! keyIsStale today kv.1) }

/-- `_get_threshold_level`: the first threshold of the descending-sorted
ladder that `abs(price_change_pct)` reaches. -/
def _get_threshold_level (thresholds : List ℚ) (price_change_pct : ℚ) :
    Option ℚ :=
  (pySorted (fun a b => decide (b ≤ a)) thresholds).find?
    (fun threshold => decide (|price_change_pct| ≥ threshold))

/-- Python `int()` on a float value represented exactly as a rational:
truncation toward zero. -/
def pyIntTrunc (q : ℚ) : Int := Int.tdiv q.num q.den

/-- `_get_alert_type`: `f"price_{direction}_{int(threshold)}pct"`. -/
def _get_alert_type (price_change_pct threshold : ℚ) : String :=
  let direction := if 0 < price_change_pct then "up" else "down"
  "price_" ++ (direction ++ ("_" ++ (toString (pyIntTrunc threshold) ++ "pct")))

/-- The threshold-ledger collaborator: the count returned by the
`daily_alerts_sent` query for `(user_id, bse_code, alert_type,
alert_date)`, `.error` standing for a raised storage exception. -/
def AlertDb : Type :=
  String → String → String → String → Except Unit Nat

/-- `_has_sent_db_alert`: its own `try`/`except` returns `False` on a
storage error, and otherwise tests `count > 0`. -/
def _has_sent_db_alert (db : AlertDb)
    (user_id bse_code alert_type alert_date : String) : Bool :=
  match db user_id bse_code alert_type alert_date with
  | .error _ => false
  | .ok n => decide (n > 0)

/-- Dict lookup in the daily tracker. -/
def dictFind (d : List (String × List String)) (k : String) :
    Option (List String) :=
  (d.find? (fun kv => kv.1 = k)).map (fun kv => kv.2)

/-- Python `set.add`. -/
def setAdd (s : List String) (v : String) : List String :=
  if s.contains v then s else s ++ [v]

/-- `_mark_alert_sent_memory`: create the key's set if absent, then add
the alert type. -/
def _mark_alert_sent_memory (t : MultiThresholdAlertTracker)
    (user_id bse_code alert_date alert_type : String) :
    MultiThresholdAlertTracker :=
  let tracking_key := _get_tracking_key user_id bse_code alert_date
  match dictFind t.daily_tracker tracking_key with
  | none =>
    { t with daily_tracker := t.daily_tracker ++ [(tracking_key, [alert_type])] }
  | some _ =>
    { t with
      daily_tracker := t.daily_tracker.map
        (fun kv =>
          if kv.1 = tracking_key then (kv.1, setAdd kv.2 alert_type) else kv) }

/-- `should_send_alert`, returning the updated tracker state together
with the `(should_send, threshold_crossed, alert_type)` result.
`datetime.now()` / `date.today().isoformat()` are the `now` / `today`
parameters; the outer `try` around the database check can only be
entered by `_has_sent_db_alert`, which already swallows its own
exceptions. -/
def should_send_alert (db : AlertDb) (now : Int) (today : String)
    (t0 : MultiThresholdAlertTracker) (user_id bse_code : String)
    (price_change_pct : ℚ) (check_db : Bool) :
    MultiThresholdAlertTracker × (Bool × Option ℚ × String) :=
  let t := _cleanup_old_entries now today t0
  match _get_threshold_level t.thresholds price_change_pct with
  | none => (t, (false, none, "no_threshold"))
  | some threshold =>
    let alert_type := _get_alert_type price_change_pct threshold
    let tracking_key := _get_tracking_key user_id bse_code today
    let memHit :=
      match dictFind t.daily_tracker tracking_key with
      | some sent_thresholds => sent_thresholds.contains alert_type
      | none => false
    if memHit then (t, (false, some threshold, "already_sent_" ++ alert_type))
    else if check_db ∧
        _has_sent_db_alert db user_id bse_code alert_type today = true then
      (_mark_alert_sent_memory t user_id bse_code today alert_type,
       (false, some threshold, "db_duplicate_" ++ alert_type))
    else (t, (true, some threshold, alert_type))

/-- `mark_alert_sent` as far as tracker state is concerned: the memory
mark.  (The companion `_mark_alert_sent_db` only inserts into external
storage and swallows its own errors; it does not touch tracker state.) -/
def mark_alert_sent (t : MultiThresholdAlertTracker) (today : String)
    (user_id bse_code : String) (price_change_pct threshold : ℚ) :
    MultiThresholdAlertTracker :=
  _mark_alert_sent_memory t user_id bse_code today
    (_get_alert_type price_change_pct threshold)

/-! ### Concrete inputs used by counterexamples and witnesses -/

/-- A threshold ledger with no recorded alerts (every count query
returns zero). -/
def c1Db : AlertDb := fun _ _ _ _ => .ok 0

/-- The first of two back-to-back `should_send_alert` calls for
`("u1", "500325", +12.0)` on a fresh tracker, with nothing in between. -/
def c1FirstCall : MultiThresholdAlertTracker × (Bool × Option ℚ × String) :=
  should_send_alert c1Db 0 "2025-10-12" (MultiThresholdAlertTracker.init 0)
    "u1" "500325" 12 true

/-- The immediately following second call on the resulting state. -/
def c1SecondCall : MultiThresholdAlertTracker × (Bool × Option ℚ × String) :=
  should_send_alert c1Db 0 "2025-10-12" c1FirstCall.1 "u1" "500325" 12 true

/-- A tracker holding exactly one entry, keyed with today's date
(`2025-10-12`), due for a cleanup pass. -/
def c2Tracker : MultiThresholdAlertTracker :=
  { thresholds := [5, 10, 15, 20]
    daily_tracker := [("u1_500325_2025-10-12", ["price_up_10pct"])]
    last_cleanup := 0
    cleanup_interval := 3600 }

/-- A prior delivery of announcement `n1` to user `u1` (headline not
result-related). -/
def c3Rec : SeenRec :=
  { user_id := "u1"
    news_id := "n1"
    scrip_code := "500325"
    headline := "Allotment of equity shares"
    ann_date := "2025-10-10 10:00:00"
    category := "Company Update"
    created_at := 800 }

/-- A storage client whose every operation raises. -/
def failClient : Client :=
  { queryUserScripSince := fun _ _ _ => .error ()
    queryUserScripLikeSince := fun _ _ _ _ => .error ()
    queryNewsSince := fun _ _ => .error ()
    seenExists := fun _ _ => .error () }

/-- Three recent deliveries (within five minutes of time 1000) to
`("u1", "500325")` with pairwise distinct announcement identifiers. -/
def c5Table : List SeenRec :=
  [{ user_id := "u1", news_id := "m1", scrip_code := "500325",
     headline := "Update one", ann_date := "d1", category := "General",
     created_at := 900 },
   { user_id := "u1", news_id := "m2", scrip_code := "500325",
     headline := "Update two", ann_date := "d2", category := "General",
     created_at := 920 },
   { user_id := "u1", news_id := "m3", scrip_code := "500325",
     headline := "Update three", ann_date := "d3", category := "General",
     created_at := 940 }]

/-- A two-element announcement group: one with an attached document, one
without. -/
def c7Group : List Ann :=
  [{ headline := "a", scrip_code := "500325", ann_dt := none,
     pdf_name := "doc.pdf" },
   { headline := "bb", scrip_code := "500325", ann_dt := none,
     pdf_name := "" }]

/-- Two board-meeting announcements about the same meeting date and one
financial-results announcement. -/
def c10A1 : Ann :=
  { headline := "Board meeting on 15-03-2025 first", scrip_code := "500325",
    ann_dt := none, pdf_name := "" }

/-- Second announcement of the `c10A1` board meeting. -/
def c10A2 : Ann :=
  { headline := "Board meeting on 15-03-2025 second", scrip_code := "500325",
    ann_dt := none, pdf_name := "" }

/-- A financial-results announcement for a quarter end. -/
def c10A3 : Ann :=
  { headline := "Results for quarter ended 31-12-2024", scrip_code := "500325",
    ann_dt := none, pdf_name := "" }

/-- The input batch for the grouping witness. -/
def c10List : List Ann := [c10A1, c10A2, c10A3]

/-- The board-meeting group produced from `c10List`. -/
def c10G1 : List Ann := [c10A1, c10A2]


/-! ### Generic facts about the stable sort -/

theorem sInsert_perm (le : α → α → Bool) (x : α) (l : List α) :
    (sInsert le x l).Perm (x :: l) := by
  induction l with
  | nil => exact List.Perm.refl _
  | cons y ys ih =>
    simp only [sInsert]
    split
    · exact (ih.cons y).trans (List.Perm.swap x y ys)
    · exact List.Perm.refl _

theorem foldl_sInsert_perm (le : α → α → Bool) :
    ∀ (l acc : List α),
      (l.foldl (fun acc x => sInsert le x acc) acc).Perm (acc ++ l) := by
  intro l
  induction l with
  | nil => intro acc; simp
  | cons x xs ih =>
    intro acc
    simp only [List.foldl_cons]
    refine (ih (sInsert le x acc)).trans ?_
    refine (List.Perm.append_right xs (sInsert_perm le x acc)).trans ?_
    exact List.perm_middle.symm

theorem pySorted_perm (le : α → α → Bool) (l : List α) :
    (pySorted le l).Perm l := by
  simpa using foldl_sInsert_perm le l []

theorem sInsert_pairwise (le : α → α → Bool)
    (htrans : ∀ a b c, le a b = true → le b c = true → le a c = true)
    (htotal : ∀ a b, le a b = true ∨ le b a = true)
    (x : α) {l : List α} (hl : l.Pairwise (fun a b => le a b = true)) :
    (sInsert le x l).Pairwise (fun a b => le a b = true) := by
  induction l with
  | nil => simp [sInsert]
  | cons y ys ih =>
    rcases List.pairwise_cons.mp hl with ⟨hy, hys⟩
    simp only [sInsert]
    split
    · rename_i hyx
      refine List.pairwise_cons.mpr ⟨?_, ih hys⟩
      intro a ha
      rcases List.mem_cons.mp ((sInsert_perm le x ys).mem_iff.mp ha) with rfl | hmem
      · exact hyx
      · exact hy a hmem
    · rename_i hyx
      have hxy : le x y = true := by
        rcases htotal x y with h | h
        · exact h
        · exact absurd h hyx
      refine List.pairwise_cons.mpr ⟨?_, hl⟩
      intro a ha
      rcases List.mem_cons.mp ha with rfl | hmem
      · exact hxy
      · exact htrans x y a hxy (hy a hmem)

theorem pySorted_pairwise (le : α → α → Bool)
    (htrans : ∀ a b c, le a b = true → le b c = true → le a c = true)
    (htotal : ∀ a b, le a b = true ∨ le b a = true)
    (l : List α) :
    (pySorted le l).Pairwise (fun a b => le a b = true) := by
  suffices h : ∀ (l acc : List α),
      acc.Pairwise (fun a b => le a b = true) →
      (l.foldl (fun acc x => sInsert le x acc) acc).Pairwise
        (fun a b => le a b = true) by
    exact h l [] (List.Pairwise.nil)
  intro l
  induction l with
  | nil => intro acc hacc; simpa using hacc
  | cons x xs ih =>
    intro acc hacc
    simp only [List.foldl_cons]
    exact ih _ (sInsert_pairwise le htrans htotal x hacc)

theorem pySorted_eq_of_perm (le : α → α → Bool)
    (htrans : ∀ a b c, le a b = true → le b c = true → le a c = true)
    (htotal : ∀ a b, le a b = true ∨ le b a = true)
    (hantisymm : ∀ a b, le a b = true → le b a = true → a = b)
    {l1 l2 : List α} (h : l1.Perm l2) :
    pySorted le l1 = pySorted le l2 := by
  have p : (pySorted le l1).Perm (pySorted le l2) :=
    (pySorted_perm le l1).trans (h.trans (pySorted_perm le l2).symm)
  exact @List.eq_of_perm_of_sorted α (fun a b => le a b = true)
    ⟨hantisymm⟩ _ _ p
    (pySorted_pairwise le htrans htotal l1)
    (pySorted_pairwise le htrans htotal l2)

/-! ### The code-point string order is a linear order -/

theorem charEqOfToNat {a b : Char} (h : a.toNat = b.toNat) : a = b :=
  Char.ext (UInt32.ext h)

theorem lexLeB_total : ∀ a b : List Char, lexLeB a b = true ∨ lexLeB b a = true := by
  intro a
  induction a with
  | nil => intro b; left; rfl
  | cons x s ih =>
    intro b
    cases b with
    | nil => right; rfl
    | cons y t =>
      simp only [lexLeB]
      rcases Nat.lt_trichotomy x.toNat y.toNat with h | h | h
      · left
        rw [if_neg (Nat.ne_of_lt h)]
        simpa using h
      · rw [if_pos h, if_pos h.symm]
        exact ih t
      · right
        rw [if_neg (Nat.ne_of_lt h)]
        simpa using h

theorem lexLeB_trans :
    ∀ a b c : List Char, lexLeB a b = true → lexLeB b c = true →
      lexLeB a c = true := by
  intro a
  induction a with
  | nil => intro b c _ _; rfl
  | cons x s ih =>
    intro b c hab hbc
    cases b with
    | nil => simp [lexLeB] at hab
    | cons y t =>
      cases c with
      | nil => simp [lexLeB] at hbc
      | cons z u =>
        simp only [lexLeB] at hab hbc ⊢
        by_cases hxy : x.toNat = y.toNat
        · rw [if_pos hxy] at hab
          by_cases hyz : y.toNat = z.toNat
          · rw [if_pos hyz] at hbc
            rw [if_pos (hxy.trans hyz)]
            exact ih t u hab hbc
          · rw [if_neg hyz] at hbc
            have hyz' : y.toNat < z.toNat := by simpa using hbc
            rw [if_neg (by omega : ¬ x.toNat = z.toNat)]
            simp only [decide_eq_true_eq]
            omega
        · rw [if_neg hxy] at hab
          have hxy' : x.toNat < y.toNat := by simpa using hab
          by_cases hyz : y.toNat = z.toNat
          · rw [if_neg (by omega : ¬ x.toNat = z.toNat)]
            simp only [decide_eq_true_eq]
            omega
          · rw [if_neg hyz] at hbc
            have hyz' : y.toNat < z.toNat := by simpa using hbc
            rw [if_neg (by omega : ¬ x.toNat = z.toNat)]
            simp only [decide_eq_true_eq]
            omega

theorem lexLeB_antisymm :
    ∀ a b : List Char, lexLeB a b = true → lexLeB b a = true → a = b := by
  intro a
  induction a with
  | nil =>
    intro b _ hba
    cases b with
    | nil => rfl
    | cons y t => simp [lexLeB] at hba
  | cons x s ih =>
    intro b hab hba
    cases b with
    | nil => simp [lexLeB] at hab
    | cons y t =>
      simp only [lexLeB] at hab hba
      by_cases hxy : x.toNat = y.toNat
      · rw [if_pos hxy] at hab
        rw [if_pos hxy.symm] at hba
        rw [charEqOfToNat hxy, ih t hab hba]
      · rw [if_neg hxy] at hab
        rw [if_neg (Ne.symm hxy)] at hba
        have h1 : x.toNat < y.toNat := by simpa using hab
        have h2 : y.toNat < x.toNat := by simpa using hba
        omega

theorem strLeB_total (a b : String) : strLeB a b = true ∨ strLeB b a = true :=
  lexLeB_total a.data b.data

theorem strLeB_trans (a b c : String) (hab : strLeB a b = true)
    (hbc : strLeB b c = true) : strLeB a c = true :=
  lexLeB_trans a.data b.data c.data hab hbc

theorem strLeB_antisymm (a b : String) (hab : strLeB a b = true)
    (hba : strLeB b a = true) : a = b := by
  cases a with
  | mk da =>
    cases b with
    | mk db => exact congrArg String.mk (lexLeB_antisymm da db hab hba)

theorem pySortedStr_eq_of_perm {l1 l2 : List String} (h : l1.Perm l2) :
    pySortedStr l1 = pySortedStr l2 :=
  pySorted_eq_of_perm strLeB (fun a b c => strLeB_trans a b c)
    strLeB_total (fun a b => strLeB_antisymm a b) h

set_option maxRecDepth 1000000

/-! ### MD5 test vectors (RFC 1321 / well-known digests) -/

theorem md5hex_empty : md5hex "" = "d41d8cd98f00b204e9800998ecf8427e" := by
  decide

theorem md5hex_abc : md5hex "abc" = "900150983cd24fb0d6963f7d28e17f72" := by
  decide

/-! ### Helper lemmas -/

theorem pairwise_head_max {R : α → α → Prop} {b : α} {t : List α}
    (h : (b :: t).Pairwise R) (hrefl : R b b) :
    ∀ a ∈ b :: t, R b a := by
  intro a ha
  rcases List.mem_cons.mp ha with rfl | hmem
  · exact hrefl
  · exact List.rel_of_pairwise_cons h hmem

theorem annLe_trans (a b c : Ann) (h1 : annLe a b = true)
    (h2 : annLe b c = true) : annLe a c = true := by
  simp only [annLe, decide_eq_true_eq] at h1 h2 ⊢
  exact le_trans h2 h1

theorem annLe_total (a b : Ann) : annLe a b = true ∨ annLe b a = true := by
  simp only [annLe, decide_eq_true_eq]
  exact le_total _ _

theorem threshold_level_cases (q : ℚ) :
    _get_threshold_level [5, 10, 15, 20] q =
      (if 20 ≤ |q| then some 20 else if 15 ≤ |q| then some 15
       else if 10 ≤ |q| then some 10 else if 5 ≤ |q| then some 5
       else none) := by
  unfold _get_threshold_level
  rw [show pySorted (fun a b => decide (b ≤ a)) ([5, 10, 15, 20] : List ℚ)
      = [20, 15, 10, 5] from by decide]
  by_cases h20 : (20 : ℚ) ≤ |q|
  · rw [if_pos h20]
    apply List.find?_cons_of_pos
    simpa [ge_iff_le] using h20
  · rw [if_neg h20, List.find?_cons_of_neg]
    swap
    · simpa [ge_iff_le] using h20
    by_cases h15 : (15 : ℚ) ≤ |q|
    · rw [if_pos h15]
      apply List.find?_cons_of_pos
      simpa [ge_iff_le] using h15
    · rw [if_neg h15, List.find?_cons_of_neg]
      swap
      · simpa [ge_iff_le] using h15
      by_cases h10 : (10 : ℚ) ≤ |q|
      · rw [if_pos h10]
        apply List.find?_cons_of_pos
        simpa [ge_iff_le] using h10
      · rw [if_neg h10, List.find?_cons_of_neg]
        swap
        · simpa [ge_iff_le] using h10
        by_cases h5 : (5 : ℚ) ≤ |q|
        · rw [if_pos h5]
          apply List.find?_cons_of_pos
          simpa [ge_iff_le] using h5
        · rw [if_neg h5, List.find?_cons_of_neg]
          swap
          · simpa [ge_iff_le] using h5
          rfl

/-! ### Claim theorems -/

/-- C2: the specification says the eviction pass of
`_cleanup_old_entries` removes exactly the entries not dated today.  In
the code the rebuilt date `parts[-2] + '_' + parts[-1]` starts with the
instrument code (the ISO date contains no underscore to split on), so it
never equals today's date and *every* well-formed key is evicted —
today's included — contradicting the function's own docstring ("Clean up
entries older than today").  `c2Tracker` holds a single entry keyed with
today's date, a cleanup pass is due, and the pass deletes it. -/
theorem c2_cleanup_deletes_todays_entries :
    keyIsStale "2025-10-12" (_get_tracking_key "u1" "500325" "2025-10-12")
      = true ∧
    (_cleanup_old_entries 3600 "2025-10-12" c2Tracker).daily_tracker = [] := by
  decide

/-- C6: `_get_threshold_level` returns the highest value of the fixed
ladder `{5, 10, 15, 20}` that is at most `abs(price_change_pct)`, `none`
below 5, and in particular `20` for `21.5`, `15` for `-15.0`, and `none`
for `4.9` and `-4.9`. -/
theorem c6_threshold_ladder (q : ℚ) :
    (∀ t, _get_threshold_level [5, 10, 15, 20] q = some t →
      t ∈ ([5, 10, 15, 20] : List ℚ) ∧ t ≤ |q| ∧
        ∀ t' ∈ ([5, 10, 15, 20] : List ℚ), t' ≤ |q| → t' ≤ t) ∧
    (_get_threshold_level [5, 10, 15, 20] q = none ↔ |q| < 5) ∧
    _get_threshold_level [5, 10, 15, 20] (mkRat 43 2) = some 20 ∧
    _get_threshold_level [5, 10, 15, 20] (-15) = some 15 ∧
    _get_threshold_level [5, 10, 15, 20] (mkRat 49 10) = none ∧
    _get_threshold_level [5, 10, 15, 20] (mkRat (-49) 10) = none := by
  refine ⟨?_, ?_, by decide, by decide, by decide, by decide⟩
  · intro t ht
    rw [threshold_level_cases] at ht
    split_ifs at ht with h20 h15 h10 h5
    · cases Option.some.inj ht
      refine ⟨by norm_num, h20, ?_⟩
      intro t' ht' hle
      fin_cases ht' <;> linarith
    · cases Option.some.inj ht
      have h20' := not_le.mp h20
      refine ⟨by norm_num, h15, ?_⟩
      intro t' ht' hle
      fin_cases ht' <;> linarith
    · cases Option.some.inj ht
      have h20' := not_le.mp h20
      have h15' := not_le.mp h15
      refine ⟨by norm_num, h10, ?_⟩
      intro t' ht' hle
      fin_cases ht' <;> linarith
    · cases Option.some.inj ht
      have h20' := not_le.mp h20
      have h15' := not_le.mp h15
      have h10' := not_le.mp h10
      refine ⟨by norm_num, h5, ?_⟩
      intro t' ht' hle
      fin_cases ht' <;> linarith
  · rw [threshold_level_cases]
    constructor
    · intro h
      split_ifs at h with h20 h15 h10 h5
      exact not_le.mp h5
    · intro h
      split_ifs with h20 h15 h10 h5
      · exfalso; linarith
      · exfalso; linarith
      · exfalso; linarith
      · exfalso; linarith
      · rfl

/-- C7: `select_best_announcement_from_group` returns an element of the
group that is maximal for the priority order (document presence, then
earlier timestamp, then longer headline); a singleton group returns its
element, and feeding the selected element back as a singleton returns it
again (idempotence). -/
theorem c7_select_best_max :
    (∀ a : Ann, select_best_announcement_from_group [a] = some a) ∧
    ∀ group : List Ann, group ≠ [] →
      ∃ b, select_best_announcement_from_group group = some b ∧ b ∈ group ∧
        (∀ a ∈ group, announcement_priority a ≤ announcement_priority b) ∧
        select_best_announcement_from_group [b] = some b := by
  have hsingle : ∀ a : Ann, select_best_announcement_from_group [a] = some a := by
    intro a
    simp [select_best_announcement_from_group]
  refine ⟨hsingle, ?_⟩
  intro group hne
  by_cases h1 : group.length = 1
  · obtain ⟨a, rfl⟩ := List.length_eq_one.mp h1
    exact ⟨a, hsingle a, by simp, by simp, hsingle a⟩
  · have hperm := pySorted_perm annLe group
    have hpair := pySorted_pairwise annLe annLe_trans annLe_total group
    have hnil : pySorted annLe group ≠ [] := by
      intro h0
      rw [h0] at hperm
      exact hne hperm.symm.eq_nil
    obtain ⟨b, t, hbt⟩ := List.exists_cons_of_ne_nil hnil
    refine ⟨b, ?_, ?_, ?_, hsingle b⟩
    · simp only [select_best_announcement_from_group, if_neg hne, if_neg h1,
        hbt, List.head?]
    · exact hperm.mem_iff.mp (hbt ▸ List.mem_cons_self b t)
    · intro a ha
      have ha' : a ∈ b :: t := hbt ▸ hperm.mem_iff.mpr ha
      have := pairwise_head_max (hbt ▸ hpair) (by simp [annLe]) a ha'
      simpa [annLe, decide_eq_true_eq] using this

/-! ### Tracker-state helper lemmas for C1 -/

theorem cleanup_thresholds (now : Int) (today : String)
    (t : MultiThresholdAlertTracker) :
    (_cleanup_old_entries now today t).thresholds = t.thresholds := by
  unfold _cleanup_old_entries
  split <;> rfl

theorem cleanup_interval_eq (now : Int) (today : String)
    (t : MultiThresholdAlertTracker) :
    (_cleanup_old_entries now today t).cleanup_interval =
      t.cleanup_interval := by
  unfold _cleanup_old_entries
  split <;> rfl

theorem cleanup_recent (now : Int) (today : String)
    (t : MultiThresholdAlertTracker) (h : 0 < t.cleanup_interval) :
    now - (_cleanup_old_entries now today t).last_cleanup <
      (_cleanup_old_entries now today t).cleanup_interval := by
  unfold _cleanup_old_entries
  split
  · rename_i hlt
    exact hlt
  · simpa using h

theorem dictFind_filter_none (d : List (String × List String))
    (p : String × List String → Bool) (k : String)
    (h : dictFind d k = none) : dictFind (d.filter p) k = none := by
  simp only [dictFind, Option.map_eq_none'] at h ⊢
  rw [List.find?_eq_none] at h ⊢
  intro x hx
  exact h x (List.mem_of_mem_filter hx)

theorem cleanup_dictFind_none (now : Int) (today : String)
    (t : MultiThresholdAlertTracker) (k : String)
    (h : dictFind t.daily_tracker k = none) :
    dictFind (_cleanup_old_entries now today t).daily_tracker k = none := by
  unfold _cleanup_old_entries
  split
  · exact h
  · exact dictFind_filter_none _ _ _ h

theorem dictFind_append_single (d : List (String × List String))
    (k : String) (v : List String) (h : dictFind d k = none) :
    dictFind (d ++ [(k, v)]) k = some v := by
  simp only [dictFind, Option.map_eq_none'] at h
  simp [dictFind, List.find?_append, h]

theorem mark_thresholds (t : MultiThresholdAlertTracker)
    (u b d ty : String) :
    (_mark_alert_sent_memory t u b d ty).thresholds = t.thresholds := by
  simp only [_mark_alert_sent_memory]
  split <;> rfl

theorem mark_last_cleanup (t : MultiThresholdAlertTracker)
    (u b d ty : String) :
    (_mark_alert_sent_memory t u b d ty).last_cleanup = t.last_cleanup := by
  simp only [_mark_alert_sent_memory]
  split <;> rfl

theorem mark_interval (t : MultiThresholdAlertTracker) (u b d ty : String) :
    (_mark_alert_sent_memory t u b d ty).cleanup_interval =
      t.cleanup_interval := by
  simp only [_mark_alert_sent_memory]
  split <;> rfl

theorem mark_dictFind_self (t : MultiThresholdAlertTracker)
    (u b d ty : String)
    (h : dictFind t.daily_tracker (_get_tracking_key u b d) = none) :
    dictFind (_mark_alert_sent_memory t u b d ty).daily_tracker
      (_get_tracking_key u b d) = some [ty] := by
  simp only [_mark_alert_sent_memory]
  rw [h]
  exact dictFind_append_single _ _ _ h

/-- C1 (counterexample): `should_send_alert` performs no recording of
its own, so two calls in direct succession — with no other operation in
between — on a fresh tracker for `("u1", "500325", +12.0)` both return
`(True, 10.0, "price_up_10pct")`; the second call does not return the
claimed not-should-alert `already_sent_…` result. -/
theorem c1_counterexample :
    c1FirstCall.2 = (true, some 10, "price_up_10pct") ∧
    c1SecondCall.2 = (true, some 10, "price_up_10pct") := by
  decide

/-- C1 (amended): for a price change of `+12.0` with no prior alert
state for today's `(user, instrument, day)` — no in-memory entry and a
zero persisted count — `should_send_alert` returns
`(True, 10, "price_up_10pct")`; after `_mark_alert_sent_memory` records
that alert type (as `mark_alert_sent` does when the alert is sent), the
next call returns `(False, 10, "already_sent_price_up_10pct")`. -/
theorem c1_twice_with_mark (db : AlertDb) (now : Int) (today : String)
    (t0 : MultiThresholdAlertTracker) (user_id bse_code : String)
    (hthr : t0.thresholds = [5, 10, 15, 20])
    (hint : t0.cleanup_interval = 3600)
    (hmem : dictFind t0.daily_tracker
      (_get_tracking_key user_id bse_code today) = none)
    (hdb : db user_id bse_code "price_up_10pct" today = Except.ok 0) :
    (should_send_alert db now today t0 user_id bse_code 12 true).2
      = (true, some 10, "price_up_10pct") ∧
    (should_send_alert db now today
        (_mark_alert_sent_memory
          (should_send_alert db now today t0 user_id bse_code 12 true).1
          user_id bse_code today "price_up_10pct")
        user_id bse_code 12 true).2
      = (false, some 10, "already_sent_price_up_10pct") := by
  have halert : _get_alert_type 12 10 = "price_up_10pct" := by decide
  have hdbf : _has_sent_db_alert db user_id bse_code "price_up_10pct" today
      = false := by
    unfold _has_sent_db_alert
    rw [hdb]
    rfl
  have hlvl1 : _get_threshold_level
      (_cleanup_old_entries now today t0).thresholds 12 = some 10 := by
    rw [cleanup_thresholds, hthr]
    decide
  have hfind1 : dictFind (_cleanup_old_entries now today t0).daily_tracker
      (_get_tracking_key user_id bse_code today) = none :=
    cleanup_dictFind_none _ _ _ _ hmem
  have hfirst : should_send_alert db now today t0 user_id bse_code 12 true
      = (_cleanup_old_entries now today t0,
         (true, some 10, "price_up_10pct")) := by
    simp only [should_send_alert, hlvl1, hfind1, halert, hdbf, true_and,
      and_false, if_false, Bool.false_eq_true, if_neg, ite_false]
  refine ⟨by rw [hfirst], ?_⟩
  rw [hfirst]
  have hclean2 : _cleanup_old_entries now today
      (_mark_alert_sent_memory (_cleanup_old_entries now today t0)
        user_id bse_code today "price_up_10pct")
      = _mark_alert_sent_memory (_cleanup_old_entries now today t0)
          user_id bse_code today "price_up_10pct" := by
    unfold _cleanup_old_entries
    rw [if_pos]
    rw [mark_last_cleanup, mark_interval]
    exact cleanup_recent now today t0 (by rw [hint]; norm_num)
  have hlvl2 : _get_threshold_level
      (_mark_alert_sent_memory (_cleanup_old_entries now today t0)
        user_id bse_code today "price_up_10pct").thresholds 12
      = some 10 := by
    rw [mark_thresholds, cleanup_thresholds, hthr]
    decide
  have hfind2 : dictFind
      (_mark_alert_sent_memory (_cleanup_old_entries now today t0)
        user_id bse_code today "price_up_10pct").daily_tracker
      (_get_tracking_key user_id bse_code today)
      = some ["price_up_10pct"] :=
    mark_dictFind_self _ _ _ _ _ hfind1
  simp only [should_send_alert, hclean2, hlvl2, hfind2, halert]
  simp only [show ["price_up_10pct"].contains "price_up_10pct" = true from
    by decide, if_true]
  simp only [show "already_sent_" ++ "price_up_10pct"
    = "already_sent_price_up_10pct" from by decide]

/-- C1 (amended, witness): the amended behaviour at the concrete inputs
of `c1FirstCall`. -/
theorem c1_twice_with_mark_witness :
    (should_send_alert c1Db 0 "2025-10-12" (MultiThresholdAlertTracker.init 0)
        "u1" "500325" 12 true).2 = (true, some 10, "price_up_10pct") ∧
    (should_send_alert c1Db 0 "2025-10-12"
        (_mark_alert_sent_memory
          (should_send_alert c1Db 0 "2025-10-12"
            (MultiThresholdAlertTracker.init 0) "u1" "500325" 12 true).1
          "u1" "500325" "2025-10-12" "price_up_10pct")
        "u1" "500325" 12 true).2
      = (false, some 10, "already_sent_price_up_10pct") :=
  c1_twice_with_mark c1Db 0 "2025-10-12" (MultiThresholdAlertTracker.init 0)
    "u1" "500325" (by decide) (by decide) (by decide) rfl

/-! ### Deduplication-engine helper lemmas -/

theorem cooling_not_result (sb : Client) (now : Int)
    (user_id scrip_code headline category : String)
    (h : isResultRelated (pyLower headline) = false) :
    is_result_notification_in_cooling_period sb now user_id scrip_code
      headline category = (false, "not_result_related") := by
  unfold is_result_notification_in_cooling_period
  simp [h]

/-- C3 (counterexample): with a prior delivery of announcement `n1` to
user `u1` on record, a fresh check for the same `(user, announcement)`
pair — with a changed, non-result-related headline — classifies as
duplicate, but the reason string is `"exact_match_existing_table"`, not
the claimed `"exact_match"`. -/
theorem c3_counterexample :
    is_announcement_already_sent (Client.ofTable [c3Rec]) 1000 "u1" "n1"
        "Allotment of equity shares - revised" "2025-10-10 10:00:00"
        "Company Update" "500325"
      = (true, "exact_match_existing_table") ∧
    ¬ is_announcement_already_sent (Client.ofTable [c3Rec]) 1000 "u1" "n1"
        "Allotment of equity shares - revised" "2025-10-10 10:00:00"
        "Company Update" "500325"
      = (true, "exact_match") := by
  decide

/-- C3 (amended): for every ledger holding a delivery record with the
identical announcement identifier for the same user, and every
non-result-related headline (so the cooling layer does not fire),
`is_announcement_already_sent` returns
`(True, "exact_match_existing_table")` — a duplicate classification by
exact identifier match — regardless of any change to the headline. -/
theorem c3_exact_match (table : List SeenRec) (now : Int)
    (user_id news_id headline ann_dt_str category scrip_code : String)
    (hres : isResultRelated (pyLower headline) = false)
    (hex : ∃ r ∈ table, r.user_id = user_id ∧ r.news_id = news_id) :
    is_announcement_already_sent (Client.ofTable table) now user_id news_id
      headline ann_dt_str category scrip_code
      = (true, "exact_match_existing_table") := by
  have hcool := cooling_not_result (Client.ofTable table) now user_id
    scrip_code headline category hres
  have hex' : db_seen_announcement_exists table user_id news_id = true := by
    rw [db_seen_announcement_exists, List.any_eq_true]
    obtain ⟨r, hr, h1, h2⟩ := hex
    exact ⟨r, hr, by simp [h1, h2]⟩
  simp only [is_announcement_already_sent, hcool]
  simp only [dedupLayers, Client.ofTable, hex']
  simp

/-- C3 (amended, witness): the amended behaviour at the concrete ledger
`[c3Rec]`. -/
theorem c3_exact_match_witness :
    is_announcement_already_sent (Client.ofTable [c3Rec]) 1000 "u1" "n1"
      "Allotment of equity shares" "2025-10-10 10:00:00" "Company Update"
      "500325" = (true, "exact_match_existing_table") :=
  c3_exact_match [c3Rec] 1000 "u1" "n1" "Allotment of equity shares"
    "2025-10-10 10:00:00" "Company Update" "500325" (by decide)
    ⟨c3Rec, by decide, by decide, by decide⟩

/-- C4 (counterexample): when storage raises during the layered checks
the engine fails open and returns a not-duplicate result, but the reason
string is `"database_check_failed"`, not the claimed `"check_failed"`. -/
theorem c4_counterexample :
    is_announcement_already_sent failClient 1000 "u1" "n1"
        "Allotment of equity shares" "2025-10-10 10:00:00" "Company Update"
        "500325"
      = (false, "database_check_failed") ∧
    ¬ (is_announcement_already_sent failClient 1000 "u1" "n1"
        "Allotment of equity shares" "2025-10-10 10:00:00" "Company Update"
        "500325").2 = "check_failed" := by
  decide

/-- C4 (amended): whenever a storage operation raises inside the layered
checks (layers 2–5; the cooling layer catches its own storage errors and
lets processing continue), `is_announcement_already_sent` catches the
exception — it never propagates, being a total function of the model —
and returns the not-duplicate fail-open result
`(False, "database_check_failed")`. -/
theorem c4_fail_open (sb : Client) (now : Int)
    (user_id news_id headline ann_dt_str category scrip_code : String)
    (hcool : (is_result_notification_in_cooling_period sb now user_id
      scrip_code headline category).1 = false)
    (e : Unit)
    (herr : dedupLayers sb now user_id news_id headline ann_dt_str category
      scrip_code = .error e) :
    is_announcement_already_sent sb now user_id news_id headline ann_dt_str
      category scrip_code = (false, "database_check_failed") := by
  simp only [is_announcement_already_sent, hcool, Bool.false_eq_true,
    if_false, herr]

/-- C4 (amended, witness): the amended behaviour at the concrete
always-raising client. -/
theorem c4_fail_open_witness :
    is_announcement_already_sent failClient 1000 "u1" "n1"
      "Allotment of equity shares" "2025-10-10 10:00:00" "Company Update"
      "500325" = (false, "database_check_failed") :=
  c4_fail_open failClient 1000 "u1" "n1" "Allotment of equity shares"
    "2025-10-10 10:00:00" "Company Update" "500325" (by decide) () rfl

/-- C5: for a non-result-related announcement whose identifier is novel
(no ledger row carries it, for this or any user) and whose content
matches no stored row, the duplicate check classifies by the burst rate
limit alone: it returns `(True, "rate_limiting_protection")` exactly
when strictly more than 2 deliveries to this `(user, instrument)` lie
within the last 5 minutes, independent of the announcement's content,
and `(False, "no_duplicate_found")` with 2 or fewer. -/
theorem c5_rate_limit (table : List SeenRec) (now : Int)
    (user_id news_id headline ann_dt_str category scrip_code : String)
    (hres : isResultRelated (pyLower headline) = false)
    (hid : ∀ r ∈ table, ¬ r.news_id = news_id)
    (hcontent : ∀ r ∈ table,
      contentFieldsMatch headline ann_dt_str category r = false) :
    is_announcement_already_sent (Client.ofTable table) now user_id news_id
      headline ann_dt_str category scrip_code
      = (if (table.filter (fun r => r.user_id = user_id ∧
            r.scrip_code = scrip_code ∧ now - 5 * 60 ≤ r.created_at)).length
            > 2
         then (true, "rate_limiting_protection")
         else (false, "no_duplicate_found")) := by
  have hcool := cooling_not_result (Client.ofTable table) now user_id
    scrip_code headline category hres
  have hex : db_seen_announcement_exists table user_id news_id = false := by
    rw [db_seen_announcement_exists, List.any_eq_false]
    intro r hr
    simp [hid r hr]
  have hfind : (table.filter (fun r => r.user_id = user_id ∧
      r.scrip_code = scrip_code ∧
      strContains r.headline (likeFragment headline) ∧
      now - 24 * 3600 ≤ r.created_at)).find?
      (contentFieldsMatch headline ann_dt_str category) = none := by
    rw [List.find?_eq_none]
    intro x hx
    simp [hcontent x (List.mem_of_mem_filter hx)]
  have hglob : table.filter
      (fun r => r.news_id = news_id ∧ now - 6 * 3600 ≤ r.created_at)
      = [] := by
    rw [List.filter_eq_nil_iff]
    intro r hr
    simp [hid r hr]
  simp only [is_announcement_already_sent, hcool]
  simp only [dedupLayers, Client.ofTable, hex, hfind, hglob]
  simp
  split
  · rename_i r heq
    split at heq
    · rename_i hc
      cases heq
      rw [if_pos hc]
    · rename_i hc
      cases heq
      rw [if_neg hc]
  · rename_i u heq
    split at heq <;> cases heq

/-- C5 (witness): with three deliveries to `("u1", "500325")` within the
last five minutes on record, a novel-content novel-identifier check
returns `(True, "rate_limiting_protection")`. -/
theorem c5_rate_limit_witness :
    is_announcement_already_sent (Client.ofTable c5Table) 1000 "u1" "n9"
      "Appointment of company secretary" "2025-10-12 09:00:00" "General"
      "500325" = (true, "rate_limiting_protection") :=
  (c5_rate_limit c5Table 1000 "u1" "n9" "Appointment of company secretary"
    "2025-10-12 09:00:00" "General" "500325" (by decide) (by decide)
    (by decide)).trans (by decide)

/-- C6 (witness): the general theorem instantiated at `+12.0`, where the
crossed threshold is `10`. -/
theorem c6_threshold_ladder_witness :
    _get_threshold_level [5, 10, 15, 20] (12 : ℚ) = some 10 ∧
    (10 : ℚ) ≤ |(12 : ℚ)| :=
  ⟨by decide, ((c6_threshold_ladder 12).1 10 (by decide)).2.1⟩

/-- C7 (witness): the selection theorem instantiated at the concrete
two-element group `c7Group`. -/
theorem c7_select_best_max_witness :
    ∃ b, select_best_announcement_from_group c7Group = some b ∧
      b ∈ c7Group ∧
      (∀ a ∈ c7Group,
        announcement_priority a ≤ announcement_priority b) ∧
      select_best_announcement_from_group [b] = some b :=
  c7_select_best_max.2 c7Group (by decide)

/-- C9: `generate_content_signature` classifies by the first matching
family in the fixed order financial-result, board-meeting,
contract-award, default headline-hash: whichever trigger sets a headline
matches, the signature carries the family tag of the earliest matching
rule in that order. -/
theorem c9_family_precedence (headline scrip_code : String)
    (ann_dt : Option ℚ) (hne : headline ≠ "") :
    (financial_periods.any (fun p => strContains (pyLower headline) p)
        = true →
      ∃ rest, generate_content_signature headline scrip_code ann_dt
        = "financial_" ++ rest) ∧
    (financial_periods.any (fun p => strContains (pyLower headline) p)
        = false →
      strContains (pyLower headline) "board meeting" = true →
      ∃ rest, generate_content_signature headline scrip_code ann_dt
        = "board_meeting_" ++ rest) ∧
    (financial_periods.any (fun p => strContains (pyLower headline) p)
        = false →
      strContains (pyLower headline) "board meeting" = false →
      contract_terms.any (fun t => strContains (pyLower headline) t)
        = true →
      ∃ rest, generate_content_signature headline scrip_code ann_dt
        = "contract_" ++ rest) ∧
    (financial_periods.any (fun p => strContains (pyLower headline) p)
        = false →
      strContains (pyLower headline) "board meeting" = false →
      contract_terms.any (fun t => strContains (pyLower headline) t)
        = false →
      ∃ rest, generate_content_signature headline scrip_code ann_dt
        = "other_" ++ rest) := by
  simp only [generate_content_signature]
  rw [if_neg hne]
  refine ⟨?_, ?_, ?_, ?_⟩
  · intro hfin
    rw [if_pos hfin]
    by_cases hd : (extract_dates (pyLower headline)).length > 0
    · rw [if_pos hd]
      exact ⟨_, rfl⟩
    · rw [if_neg hd]
      exact ⟨_, rfl⟩
  · intro hfin hb
    rw [if_neg (by simp [hfin]), if_pos hb]
    cases h : meeting_date_patterns.findSome?
        (fun p => (reFindAll p (pyLower headline).data).head?) with
    | none =>
      simp only [h]
      exact ⟨_, rfl⟩
    | some m =>
      simp only [h]
      exact ⟨_, rfl⟩
  · intro hfin hb hc
    rw [if_neg (by simp [hfin]), if_neg (by simp [hb]), if_pos hc]
    cases h : contract_patterns.findSome?
        (fun p => (reFindAll p (pyLower headline).data).head?) with
    | none =>
      simp only [h]
      exact ⟨_, rfl⟩
    | some m =>
      simp only [h]
      exact ⟨_, rfl⟩
  · intro hfin hb hc
    rw [if_neg (by simp [hfin]), if_neg (by simp [hb]),
      if_neg (by simp [hc])]
    exact ⟨_, rfl⟩

/-- C9 (witness): a headline matching both the financial-result and
board-meeting trigger sets is classified by the earlier financial-result
family. -/
theorem c9_family_precedence_witness :
    strContains (pyLower "Board meeting to consider financial results")
      "board meeting" = true ∧
    ∃ rest, generate_content_signature
        "Board meeting to consider financial results" "500325" none
      = "financial_" ++ rest :=
  ⟨by decide,
    (c9_family_precedence "Board meeting to consider financial results"
      "500325" none (by decide)).1 (by decide)⟩

/-! ### Grouping lemmas for C10 -/

theorem map_id_of {α : Type} {l : List α} {f : α → α}
    (h : ∀ x ∈ l, f x = x) : l.map f = l := by
  induction l with
  | nil => rfl
  | cons x xs ih =>
    rw [List.map_cons, h x (by simp), ih (fun y hy => h y (by simp [hy]))]

theorem map_congr_mem {α β : Type} {l : List α} {f g : α → β}
    (h : ∀ x ∈ l, f x = g x) : l.map f = l.map g := by
  induction l with
  | nil => rfl
  | cons x xs ih =>
    rw [List.map_cons, List.map_cons, h x (by simp),
      ih (fun y hy => h y (by simp [hy]))]

theorem insertGroup_coherent (gs : List (String × List Ann)) (a : Ann)
    (hco : ∀ k g, (k, g) ∈ gs → g ≠ [] ∧ ∀ x ∈ g, sigOfAnn x = k) :
    ∀ k g, (k, g) ∈ insertGroup gs (sigOfAnn a) a →
      g ≠ [] ∧ ∀ x ∈ g, sigOfAnn x = k := by
  intro k g hmem
  unfold insertGroup at hmem
  split at hmem
  · rcases List.mem_map.mp hmem with ⟨kv, hkv, heq⟩
    by_cases hk : kv.1 = sigOfAnn a
    · rw [if_pos hk] at heq
      cases heq
      obtain ⟨hne, hall⟩ := hco kv.1 kv.2 (by simpa using hkv)
      refine ⟨by simp, ?_⟩
      intro x hx
      rcases List.mem_append.mp hx with hx | hx
      · exact hall x hx
      · rw [List.mem_singleton.mp hx]
        exact hk.symm
    · rw [if_neg hk] at heq
      cases heq
      exact hco k g hkv
  · rcases List.mem_append.mp hmem with hmem | hmem
    · exact hco k g hmem
    · cases List.mem_singleton.mp hmem
      refine ⟨by simp, ?_⟩
      intro x hx
      rw [List.mem_singleton.mp hx]

theorem insertGroup_keys_nodup (gs : List (String × List Ann))
    (k0 : String) (a : Ann) (h : (gs.map Prod.fst).Nodup) :
    ((insertGroup gs k0 a).map Prod.fst).Nodup := by
  unfold insertGroup
  split
  · have heq : (gs.map
        (fun kv => if kv.1 = k0 then (kv.1, kv.2 ++ [a]) else kv)).map
        Prod.fst = gs.map Prod.fst := by
      rw [List.map_map]
      apply map_congr_mem
      intro kv _
      by_cases hk : kv.1 = k0 <;> simp [hk]
    rw [heq]
    exact h
  · rename_i hany
    rw [List.map_append]
    rw [List.nodup_append]
    refine ⟨h, by simp, ?_⟩
    intro x hx hx0
    simp only [List.map_cons, List.map_nil, List.mem_singleton] at hx0
    rcases List.mem_map.mp hx with ⟨kv, hkv, hfst⟩
    apply hany
    rw [List.any_eq_true]
    exact ⟨kv, hkv, by simp [hfst, hx0]⟩

theorem flatMap_update (k0 : String) (a : Ann) :
    ∀ gs : List (String × List Ann), (gs.map Prod.fst).Nodup →
      ((gs.map
          (fun kv => if kv.1 = k0 then (kv.1, kv.2 ++ [a]) else kv)).flatMap
        Prod.snd).Perm
        ((gs.flatMap Prod.snd) ++
          (if gs.any (fun kv => kv.1 = k0) = true then [a] else [])) := by
  intro gs
  induction gs with
  | nil => simp
  | cons kv rest ih =>
    intro hnd
    have hndr : (rest.map Prod.fst).Nodup := (List.nodup_cons.mp hnd).2
    have hkv : kv.1 ∉ rest.map Prod.fst := (List.nodup_cons.mp hnd).1
    by_cases hk : kv.1 = k0
    · have hras : rest.any (fun kv => kv.1 = k0) = false := by
        rw [List.any_eq_false]
        intro x hx
        simp only [decide_eq_true_eq]
        intro hx1
        exact hkv (List.mem_map.mpr ⟨x, hx, by rw [hx1, hk]⟩)
      have hmapid : rest.map
          (fun kv => if kv.1 = k0 then (kv.1, kv.2 ++ [a]) else kv)
          = rest := by
        apply map_id_of
        intro x hx
        rw [if_neg]
        intro hx1
        exact hkv (List.mem_map.mpr ⟨x, hx, by rw [hx1, hk]⟩)
      simp only [List.map_cons, if_pos hk, List.flatMap_cons, hmapid,
        List.any_cons]
      rw [if_pos (by simp [hk])]
      rw [List.append_assoc, List.append_assoc]
      exact List.Perm.append_left kv.2 List.perm_append_comm
    · simp only [List.map_cons, if_neg hk, List.flatMap_cons, List.any_cons]
      have hcond : (decide (kv.1 = k0) ||
          rest.any fun kv => decide (kv.1 = k0))
          = rest.any fun kv => decide (kv.1 = k0) := by
        simp [hk]
      simp only [hcond]
      rw [List.append_assoc]
      exact List.Perm.append_left kv.2 (ih hndr)

theorem insertGroup_flatMap (gs : List (String × List Ann)) (k0 : String)
    (a : Ann) (hnd : (gs.map Prod.fst).Nodup) :
    ((insertGroup gs k0 a).flatMap Prod.snd).Perm
      ((gs.flatMap Prod.snd) ++ [a]) := by
  unfold insertGroup
  split
  · rename_i hany
    have h := flatMap_update k0 a gs hnd
    rw [if_pos hany] at h
    exact h
  · rw [List.flatMap_append]
    simp

theorem group_announcements_invariant (l : List Ann) :
    ∀ gs : List (String × List Ann),
      (∀ k g, (k, g) ∈ gs → g ≠ [] ∧ ∀ x ∈ g, sigOfAnn x = k) →
      (gs.map Prod.fst).Nodup →
      (∀ k g, (k, g) ∈ l.foldl
          (fun groups ann => insertGroup groups (sigOfAnn ann) ann) gs →
          g ≠ [] ∧ ∀ x ∈ g, sigOfAnn x = k) ∧
      ((l.foldl (fun groups ann => insertGroup groups (sigOfAnn ann) ann)
          gs).map Prod.fst).Nodup ∧
      ((l.foldl (fun groups ann => insertGroup groups (sigOfAnn ann) ann)
          gs).flatMap Prod.snd).Perm ((gs.flatMap Prod.snd) ++ l) := by
  induction l with
  | nil =>
    intro gs hco hnd
    exact ⟨hco, hnd, by simp⟩
  | cons a rest ih =>
    intro gs hco hnd
    obtain ⟨h1, h2, h3⟩ := ih (insertGroup gs (sigOfAnn a) a)
      (insertGroup_coherent gs a hco)
      (insertGroup_keys_nodup gs (sigOfAnn a) a hnd)
    refine ⟨h1, h2, ?_⟩
    simp only [List.foldl_cons] at h3 ⊢
    refine h3.trans ?_
    refine (List.Perm.append_right rest
      (insertGroup_flatMap gs (sigOfAnn a) a hnd)).trans ?_
    rw [List.append_assoc]
    rfl

/-- C10: `group_announcements` partitions its input: every group is
keyed by the signature of each of its members (so each announcement
lands in the single group keyed by the signature of its own headline and
instrument code), the keys are pairwise distinct, every group is
non-empty, and the concatenation of all groups is a permutation of the
input list. -/
theorem c10_group_partition (l : List Ann) :
    (∀ k g, (k, g) ∈ group_announcements l →
      g ≠ [] ∧ ∀ a ∈ g, sigOfAnn a = k) ∧
    ((group_announcements l).map Prod.fst).Nodup ∧
    ((group_announcements l).flatMap Prod.snd).Perm l := by
  obtain ⟨h1, h2, h3⟩ := group_announcements_invariant l [] (by simp)
    (by simp)
  exact ⟨h1, h2, by simpa using h3⟩

/-- C10 (witness): the partition theorem instantiated at the concrete
batch `c10List`, whose board-meeting group is `c10G1`. -/
theorem c10_group_partition_witness :
    c10G1 ≠ [] ∧
    ∀ a ∈ c10G1, sigOfAnn a = "board_meeting_500325_15-03-2025" :=
  (c10_group_partition c10List).1 "board_meeting_500325_15-03-2025" c10G1
    (by decide)

/-! ### Signature-stability lemmas for C8 -/

theorem dedup_toFinset (l : List String) : l.dedup.toFinset = l.toFinset := by
  ext a
  simp [List.mem_toFinset, List.mem_dedup]

/-- C8: for headlines that contain a financial-period phrase and at
least one extractable date, the financial-result signature depends only
on the *set* of normalized extracted dates (they are de-duplicated and
sorted before joining): any two such headlines whose extracted dates
normalize to the same set — e.g. under re-ordering of the dates or
ordinal-suffix variation — receive the same signature for the same
instrument code. -/
theorem c8_signature_stability (h1 h2 scrip_code : String)
    (dt1 dt2 : Option ℚ) (hne1 : h1 ≠ "") (hne2 : h2 ≠ "")
    (hfin1 : financial_periods.any (fun p => strContains (pyLower h1) p)
      = true)
    (hfin2 : financial_periods.any (fun p => strContains (pyLower h2) p)
      = true)
    (hd1 : (extract_dates (pyLower h1)).length > 0)
    (hd2 : (extract_dates (pyLower h2)).length > 0)
    (hsets : ((extract_dates (pyLower h1)).map normalizeDateStr).toFinset
      = ((extract_dates (pyLower h2)).map normalizeDateStr).toFinset) :
    generate_content_signature h1 scrip_code dt1
      = generate_content_signature h2 scrip_code dt2 := by
  have hperm : (((extract_dates (pyLower h1)).map
      normalizeDateStr).dedup).Perm
      (((extract_dates (pyLower h2)).map normalizeDateStr).dedup) :=
    List.perm_of_nodup_nodup_toFinset_eq (List.nodup_dedup _)
      (List.nodup_dedup _)
      (by rw [dedup_toFinset, dedup_toFinset, hsets])
  have hsig : pySortedStr
      ((extract_dates (pyLower h1)).map normalizeDateStr).dedup
      = pySortedStr
        ((extract_dates (pyLower h2)).map normalizeDateStr).dedup :=
    pySortedStr_eq_of_perm hperm
  simp only [generate_content_signature]
  rw [if_neg hne1, if_neg hne2, if_pos hfin1, if_pos hfin2, if_pos hd1,
    if_pos hd2, hsig]

/-- C8 (witness): the stability theorem at two concrete headlines that
differ in an ordinal suffix (`1st march` vs `1 march`) and in the date
separators (`30.09.2025` vs `30/09/2025`). -/
theorem c8_signature_stability_witness :
    generate_content_signature "audited 1st march 2025 and 30.09.2025"
        "500325" none
      = generate_content_signature "audited 30/09/2025 and 1 march 2025"
        "500325" none :=
  c8_signature_stability "audited 1st march 2025 and 30.09.2025"
    "audited 30/09/2025 and 1 march 2025" "500325" none none (by decide)
    (by decide) (by decide) (by decide) (by decide) (by decide) (by decide)
